import Mathlib

/-!
# Verification of the `dai_cadcad` simulation core

A shallow embedding, in Lean 4, of the state-transition functions of
`src/dai_cadcad/policies.py`: the ledger (`vat_*`), the liquidation engine
(`cat_*`, `vow_fess`) and the two-phase collateral auction (`flipper_*`),
together with theorems settling the frozen claims about them.

Conventions of the embedding:

* Python dicts become association lists (`Dict`), with Python's semantics:
  lookup and in-place update (`d[k] op= v`) raise `KeyError` when the key is
  absent, plain assignment (`d[k] = v`) creates the key, `del` removes it.
  Keys of a Python dict are unique; where a proof needs that invariant it is
  taken as an explicit `Nodup` hypothesis.
* Every mutating operation is embedded as a function from the pre-state to
  `Except (Err × State) State`.  The state carried by an error is the state
  as it stands when the Python exception propagates: assertion failures in
  the source occur before the function touches shared state, but a late
  `KeyError` can leave a partial mutation behind, and the embedding keeps
  that behaviour (e.g. `vat_frob` updates `debt` before it touches the gem
  record, `vat_move` debits the source before it credits the destination).
* The fixed-point numerics live in `dai_cadcad/pymaker/numeric.py`, which is
  repository code not present under `src/`; those operations are therefore
  modelled from the spec (§3): an integer mantissa at 18 (`Wad`), 27 (`Ray`)
  or 45 (`Rad`) fractional digits, multiplication/division truncating toward
  zero into the left operand's precision, explicit truncating narrowing, and
  exact rescaling upward.  Division by zero would raise in Python while
  `Int.tdiv` returns `0`; every claim below either conditions on a success
  path on which the divisor is positive or concerns checks made before any
  division, so the difference is unobservable in the theorems.
-/

/-! ## Fixed-point numerics (modelled from the spec) -/

/-- Modelled from the spec: the `Wad` scale, 10^18 (P18 fractional digits). -/
def WAD : Int := 10 ^ 18

/-- Modelled from the spec: the `Ray` scale, 10^27 (P27 fractional digits). -/
def RAY : Int := 10 ^ 27

/-- Modelled from the spec: the `Rad` scale, 10^45 (P45 fractional digits). -/
def RAD : Int := 10 ^ 45

/-- Modelled from the spec: multiply a `Wad` (or `Rad`) mantissa by a `Ray`
mantissa, truncating toward zero, keeping the left operand's precision
(`Wad * Ray -> Wad`, `Rad * Ray -> Rad`). -/
def mulRay (x r : Int) : Int := Int.tdiv (x * r) RAY

/-- Modelled from the spec: `Ray * Wad -> Ray`, truncating toward zero. -/
def rmulW (r w : Int) : Int := Int.tdiv (r * w) WAD

/-- Modelled from the spec: `Wad * Wad -> Wad`, truncating toward zero. -/
def mulWW (a b : Int) : Int := Int.tdiv (a * b) WAD

/-- Modelled from the spec: `Wad / Wad -> Wad`, truncating toward zero. -/
def divWW (a b : Int) : Int := Int.tdiv (a * WAD) b

/-- Modelled from the spec: `Wad / Ray -> Wad`, truncating toward zero. -/
def divWRay (a r : Int) : Int := Int.tdiv (a * RAY) r

/-- Modelled from the spec: truncating narrowing `Ray -> Wad`. -/
def wadOfRay (r : Int) : Int := Int.tdiv r (10 ^ 9)

/-- Modelled from the spec: truncating narrowing `Rad -> Wad`. -/
def wadOfRad (x : Int) : Int := Int.tdiv x RAY

/-- Modelled from the spec: exact widening `Wad -> Rad`. -/
def radOfWad (w : Int) : Int := w * RAY

/-- Modelled from the spec: exact widening `Ray -> Rad`. -/
def radOfRay (r : Int) : Int := r * WAD

/-! ## Python dicts as association lists -/

/-- A Python dict: an association list of key/value pairs (unique keys in any
state a Python program can build). -/
abbrev Dict (K V : Type) := List (K × V)

variable {K V : Type}

/-- Dict lookup, `d.get(k)` / `d[k]`: the first binding of the key, if any. -/
def dlookup [DecidableEq K] : Dict K V → K → Option V
  | [], _ => none
  | (a, b) :: rest, key => if a = key then some b else dlookup rest key

/-- Dict assignment `d[k] = v`: replaces the first binding of the key, or
appends a new binding when the key is absent. -/
def dset [DecidableEq K] : Dict K V → K → V → Dict K V
  | [], key, v => [(key, v)]
  | (a, b) :: rest, key, v =>
    if a = key then (a, v) :: rest else (a, b) :: dset rest key v

/-- Dict in-place modification `d[k] = f(d[k])` (the shape of `d[k] += x`):
`none` models the `KeyError` Python raises when the key is absent. -/
def dmodify [DecidableEq K] : Dict K V → K → (V → V) → Option (Dict K V)
  | [], _, _ => none
  | (a, b) :: rest, key, f =>
    if a = key then some ((a, f b) :: rest)
    else (dmodify rest key f).map (fun r => (a, b) :: r)

/-- Dict deletion `del d[k]`: removes the first binding of the key.  In the
source it is only ever applied to a key just looked up successfully. -/
def ddel [DecidableEq K] : Dict K V → K → Dict K V
  | [], _ => []
  | (a, b) :: rest, key => if a = key then rest else (a, b) :: ddel rest key

/-- Two-level lookup `d[k1][k2]` through nested dicts. -/
def dlookup2 [DecidableEq K] (d : Dict K (Dict K V)) (k₁ k₂ : K) : Option V :=
  (dlookup d k₁).bind (fun m => dlookup m k₂)

/-- The sum of all values of a dict of integers (a "total balance"). -/
def dsum (d : Dict K Int) : Int := (d.map Prod.snd).sum

/-! ## The state model (from `state.py` initial shapes and `policies.py` usage) -/

/-- An `Ilk` record of the Vat: `rate`/`spot` are `Ray` mantissas,
`line`/`dust` are `Rad` mantissas, `Art` is a `Wad` mantissa. -/
structure Ilk where
  rate : Int
  spot : Int
  line : Int
  dust : Int
  Art : Int
deriving DecidableEq

/-- An `Urn` record: `ink` and `art` are `Wad` mantissas. -/
structure Urn where
  ink : Int
  art : Int
deriving DecidableEq

/-- The `vat` state object: ilks, urns keyed ilk-then-user, gem balances keyed
ilk-then-address (`Wad`), dai balances keyed by address (`Rad`), `sin`
balances, and the scalars `debt`, `vice`, `Line` (`Rad`). -/
structure Vat where
  ilks : Dict String Ilk
  urns : Dict String (Dict String Urn)
  gem : Dict String (Dict String Int)
  dai : Dict String Int
  sin : Dict String Int
  debt : Int
  vice : Int
  Line : Int
deriving DecidableEq

/-- A Flipper auction record (`flipper["bids"][id]`); `bid`/`tab` are `Rad`
mantissas, `lot` is a `Wad` mantissa, `tic`/`end` are timesteps (`end` is a
Lean keyword, so the field is `end_`). -/
structure BidRec where
  bid : Int
  lot : Int
  guy : String
  tic : Int
  end_ : Int
  usr : String
  gal : String
  tab : Int
deriving DecidableEq

/-- The `flipper_eth` state object: its collateral type, tuning (`beg` a
`Ray` mantissa, `ttl`/`tau` timestep counts), the `kicks` counter and the
live auctions. -/
structure Flipper where
  ilk : String
  beg : Int
  ttl : Int
  tau : Int
  kicks : Nat
  bids : Dict Nat BidRec
deriving DecidableEq

/-- A per-ilk record of the `cat` (`cat["ilks"][ilk]`): `chop` a `Ray`
mantissa, `dunk` a `Rad` mantissa. -/
structure Milk where
  chop : Int
  dunk : Int
deriving DecidableEq

/-- The `cat` state object: the liquidation box and the running litter
(`Rad` mantissas), plus per-ilk configuration. -/
structure Cat where
  box : Int
  litter : Int
  ilks : Dict String Milk
deriving DecidableEq

/-- The `vow` state object (only the debt queue `Sin` is touched here). -/
structure Vow where
  Sin : Int
deriving DecidableEq

/-- The combined simulation state threaded through `cat_bite` and the
Flipper operations. -/
structure St where
  vat : Vat
  vow : Vow
  cat : Cat
  flipper : Flipper
deriving DecidableEq

/-- The errors of the embedded operations: each `assert` message of the
source, plus `keyError` for a failed dict lookup / in-place update. -/
inductive Err where
  | keyError
  | ceilingExceeded
  | notSafe
  | dustViolation
  | notUnsafe
  | liquidationLimitHit
  | nullAuction
  | overflow
  | alreadyFinishedTic
  | alreadyFinishedEnd
  | lotNotMatching
  | higherThanTab
  | bidNotHigher
  | insufficientIncrease
  | notMatchingBid
  | tendNotFinished
  | lotNotLower
  | insufficientDecrease
  | notFinished
deriving DecidableEq

/-! ## Ledger operations (`policies.py`, Vat section) -/

/-- Embedding of `vat_flux` (policies.py:116-121): moves `wad` of gem from
`src` to `dst` for the given ilk.  Python mutates `src` before `dst`; a
`KeyError` on `dst` therefore leaves the `src` debit behind. -/
def vat_flux (vat : Vat) (ilk_id src dst : String) (wad : Int) :
    Except (Err × Vat) Vat :=
  match dlookup vat.gem ilk_id with
  | none => .error (.keyError, vat)
  | some g =>
    match dmodify g src (fun x => x - wad) with
    | none => .error (.keyError, vat)
    | some g₁ =>
      match dmodify g₁ dst (fun x => x + wad) with
      | none => .error (.keyError, { vat with gem := dset vat.gem ilk_id g₁ })
      | some g₂ => .ok { vat with gem := dset vat.gem ilk_id g₂ }

/-- Embedding of `vat_move` (policies.py:124-129): moves `rad` of dai from
`src` to `dst`.  Python mutates `src` before `dst`. -/
def vat_move (vat : Vat) (src dst : String) (rad : Int) :
    Except (Err × Vat) Vat :=
  match dmodify vat.dai src (fun x => x - rad) with
  | none => .error (.keyError, vat)
  | some d₁ =>
    match dmodify d₁ dst (fun x => x + rad) with
    | none => .error (.keyError, { vat with dai := d₁ })
    | some d₂ => .ok { vat with dai := d₂ }

/-- Embedding of `vat_frob` (policies.py:132-163).  The urn and ilk are
mutated on copies, the three asserts run, and only then is the shared state
written: `debt` first, then the gem debit (whose `KeyError`, for a caller
with no gem record, strands the already-updated `debt`), then the dai
credit (created if absent), the urn (created if absent) and the ilk. -/
def vat_frob (vat : Vat) (ilk_id user_id : String) (dink dart : Int) :
    Except (Err × Vat) Vat :=
  match dlookup vat.urns ilk_id with
  | none => .error (.keyError, vat)
  | some urnmap =>
  match dlookup vat.ilks ilk_id with
  | none => .error (.keyError, vat)
  | some ilk =>
    let urn : Urn := (dlookup urnmap user_id).getD ⟨0, 0⟩
    let urn' : Urn := ⟨urn.ink + dink, urn.art + dart⟩
    let ilk' : Ilk := { ilk with Art := ilk.Art + dart }
    let dtab := radOfRay (rmulW ilk'.rate dart)
    let tab := radOfRay (rmulW ilk'.rate urn'.art)
    if dart ≤ 0 ∨ (radOfWad (mulRay ilk'.Art ilk'.rate) ≤ ilk'.line ∧
        vat.debt ≤ vat.Line) then
      if (dart ≤ 0 ∧ 0 ≤ dink) ∨ tab ≤ radOfWad (mulRay urn'.ink ilk'.spot) then
        if urn'.art = 0 ∨ ilk'.dust ≤ tab then
          let vat₁ := { vat with debt := vat.debt + dtab }
          match dlookup vat₁.gem ilk_id with
          | none => .error (.keyError, vat₁)
          | some g =>
          match dmodify g user_id (fun x => x - dink) with
          | none => .error (.keyError, vat₁)
          | some g₁ =>
            let vat₂ := { vat₁ with gem := dset vat₁.gem ilk_id g₁ }
            let dai := (dlookup vat₂.dai user_id).getD (0 : Int)
            .ok { vat₂ with
                  dai := dset vat₂.dai user_id (dai + dtab),
                  urns := dset vat₂.urns ilk_id (dset urnmap user_id urn'),
                  ilks := dset vat₂.ilks ilk_id ilk' }
        else .error (.dustViolation, vat)
      else .error (.notSafe, vat)
    else .error (.ceilingExceeded, vat)

/-- Embedding of `vat_grab` (policies.py:166-181).  The urn and ilk are the
stored records (Python mutates them in place through aliases), so their
updates land before the gem/sin debits; a `KeyError` on the `cat` gem record
or the `vow` sin record leaves them mutated. -/
def vat_grab (vat : Vat) (ilk_id user_id : String) (dink dart : Int) :
    Except (Err × Vat) Vat :=
  match dlookup vat.urns ilk_id with
  | none => .error (.keyError, vat)
  | some urnmap =>
  match dlookup urnmap user_id with
  | none => .error (.keyError, vat)
  | some urn =>
  match dlookup vat.ilks ilk_id with
  | none => .error (.keyError, vat)
  | some ilk =>
    let urn' : Urn := ⟨urn.ink + dink, urn.art + dart⟩
    let ilk' : Ilk := { ilk with Art := ilk.Art + dart }
    let dtab := radOfRay (rmulW ilk'.rate dart)
    let vat₁ := { vat with
                  urns := dset vat.urns ilk_id (dset urnmap user_id urn'),
                  ilks := dset vat.ilks ilk_id ilk' }
    match dlookup vat₁.gem ilk_id with
    | none => .error (.keyError, vat₁)
    | some g =>
    match dmodify g "cat" (fun x => x - dink) with
    | none => .error (.keyError, vat₁)
    | some g₁ =>
      let vat₂ := { vat₁ with gem := dset vat₁.gem ilk_id g₁ }
      match dmodify vat₂.sin "vow" (fun x => x - dtab) with
      | none => .error (.keyError, vat₂)
      | some sin' =>
        .ok { vat₂ with sin := sin', vice := vat₂.vice - dtab }

/-- Embedding of `vow_fess` (policies.py:190-194): pushes onto the debt
queue.  Never fails. -/
def vow_fess (vow : Vow) (tab : Int) : Vow := { vow with Sin := vow.Sin + tab }

/-- Embedding of `cat_claw` (policies.py:238-242): subtracts from the measure
of Dai up for liquidation.  Never fails. -/
def cat_claw (cat : Cat) (rad : Int) : Cat :=
  { cat with litter := cat.litter - rad }

/-! ## Auction operations (`policies.py`, Flipper section)

The Flipper functions take both the flipper and the vat; the embedding
threads the whole `St`, acting on its `flipper` and `vat` components. -/

/-- Embedding of `flipper_kick` (policies.py:251-269): allocates the next
auction id, stores the bid record (`guy="cat"`, `tic=0`), and escrows the
lot by `vat_flux` from `cat` to `flipper_eth`.  Python bumps `kicks` and
stores the record before the flux, so a flux `KeyError` leaves them behind. -/
def flipper_kick (flipper : Flipper) (vat : Vat) (user_id gal : String)
    (tab lot bid end_ : Int) : Except (Err × Flipper × Vat) (Flipper × Vat) :=
  let kicks' := flipper.kicks + 1
  let rec' : BidRec := ⟨bid, lot, "cat", 0, end_, user_id, gal, tab⟩
  let flipper₁ := { flipper with kicks := kicks', bids := dset flipper.bids kicks' rec' }
  match vat_flux vat flipper.ilk "cat" "flipper_eth" lot with
  | .error (e, v') => .error (e, flipper₁, v')
  | .ok v' => .ok (flipper₁, v')

/-- Embedding of `flipper_tend` (policies.py:272-296): deadline, lot, tab,
raise and minimum-increment checks, then the incumbent refund / `guy` swap
(only when the bidder differs), the incremental payment to `gal`, and the
`bid`/`tic` update on the stored record. -/
def flipper_tend (s : St) (bid_id : Nat) (user_id : String)
    (lot bid now : Int) : Except (Err × St) St :=
  match dlookup s.flipper.bids bid_id with
  | none => .error (.keyError, s)
  | some curr =>
    if now < curr.tic ∨ curr.tic = 0 then
      if now < curr.end_ then
        if lot = curr.lot then
          if bid ≤ curr.tab then
            if curr.bid < bid then
              if mulRay curr.bid s.flipper.beg ≤ bid ∨ bid = curr.tab then
                let step1 : Except (Err × St) (Vat × BidRec) :=
                  if user_id = curr.guy then .ok (s.vat, curr)
                  else
                    match vat_move s.vat user_id curr.guy curr.bid with
                    | .error (e, v') => .error (e, { s with vat := v' })
                    | .ok v' => .ok (v', { curr with guy := user_id })
                match step1 with
                | .error e => .error e
                | .ok (v₁, curr₁) =>
                  let s₁ : St := { s with
                    vat := v₁,
                    flipper := { s.flipper with
                                 bids := dset s.flipper.bids bid_id curr₁ } }
                  match vat_move v₁ user_id curr.gal (bid - curr.bid) with
                  | .error (e, v₂) => .error (e, { s₁ with vat := v₂ })
                  | .ok v₂ =>
                    .ok { s with
                          vat := v₂,
                          flipper := { s.flipper with
                            bids := dset s.flipper.bids bid_id
                              { curr₁ with
                                bid := bid,
                                tic := now + s.flipper.ttl } } }
              else .error (.insufficientIncrease, s)
            else .error (.bidNotHigher, s)
          else .error (.higherThanTab, s)
        else .error (.lotNotMatching, s)
      else .error (.alreadyFinishedEnd, s)
    else .error (.alreadyFinishedTic, s)

/-- Embedding of `flipper_dent` (policies.py:299-319): deadline checks, the
saturation checks (`bid == curr.bid == tab`), the strict lot decrease and
minimum-decrement checks, then the incumbent refund / `guy` swap, the
collateral rebate from escrow to the urn owner `usr`, and the `lot`/`tic`
update on the stored record. -/
def flipper_dent (s : St) (bid_id : Nat) (user_id : String)
    (lot bid now : Int) : Except (Err × St) St :=
  match dlookup s.flipper.bids bid_id with
  | none => .error (.keyError, s)
  | some curr =>
    if now < curr.tic ∨ curr.tic = 0 then
      if now < curr.end_ then
        if bid = curr.bid then
          if bid = curr.tab then
            if lot < curr.lot then
              if mulRay lot s.flipper.beg ≤ curr.lot then
                let step1 : Except (Err × St) (Vat × BidRec) :=
                  if user_id = curr.guy then .ok (s.vat, curr)
                  else
                    match vat_move s.vat user_id curr.guy curr.bid with
                    | .error (e, v') => .error (e, { s with vat := v' })
                    | .ok v' => .ok (v', { curr with guy := user_id })
                match step1 with
                | .error e => .error e
                | .ok (v₁, curr₁) =>
                  let s₁ : St := { s with
                    vat := v₁,
                    flipper := { s.flipper with
                                 bids := dset s.flipper.bids bid_id curr₁ } }
                  match vat_flux v₁ s.flipper.ilk "flipper_eth" curr.usr
                      (curr.lot - lot) with
                  | .error (e, v₂) => .error (e, { s₁ with vat := v₂ })
                  | .ok v₂ =>
                    .ok { s with
                          vat := v₂,
                          flipper := { s.flipper with
                            bids := dset s.flipper.bids bid_id
                              { curr₁ with
                                lot := lot,
                                tic := now + s.flipper.ttl } } }
              else .error (.insufficientDecrease, s)
            else .error (.lotNotLower, s)
          else .error (.tendNotFinished, s)
        else .error (.notMatchingBid, s)
      else .error (.alreadyFinishedEnd, s)
    else .error (.alreadyFinishedTic, s)

/-- Embedding of `flipper_deal` (policies.py:322-334): fails `NotFinished`
unless `tic != 0` and a deadline has passed; on success claws back the tab,
releases the lot from escrow to the high bidder, and deletes the record.
Python claws before the flux, so a flux `KeyError` leaves `litter` reduced. -/
def flipper_deal (s : St) (bid_id : Nat) (now : Int) : Except (Err × St) St :=
  match dlookup s.flipper.bids bid_id with
  | none => .error (.keyError, s)
  | some curr =>
    if curr.tic ≠ 0 ∧ (curr.tic ≤ now ∨ curr.end_ ≤ now) then
      let cat' := cat_claw s.cat curr.tab
      let s₁ : St := { s with cat := cat' }
      match vat_flux s.vat s.flipper.ilk "flipper_eth" curr.guy curr.lot with
      | .error (e, v') => .error (e, { s₁ with vat := v' })
      | .ok v' =>
        .ok { s₁ with
              vat := v',
              flipper := { s.flipper with bids := ddel s.flipper.bids bid_id } }
    else .error (.notFinished, s)

/-! ## Liquidation (`policies.py`, Cat section) -/

/-- Embedding of `cat_bite` (policies.py:203-235): the not-unsafe check
(note the extra `spot > 0` conjunct), the liquidation-limit check, the
`dart`/`dink` computation with its null-auction and overflow checks, then
`vat_grab`, `vow_fess`, the `litter` increase by `tab = dart*rate*chop`,
and the `flipper_kick` with that `tab`, `dink` as lot and deadline
`now + tau`. -/
def cat_bite (s : St) (ilk_id user_id : String) (now : Int) :
    Except (Err × St) St :=
  match dlookup s.vat.ilks ilk_id with
  | none => .error (.keyError, s)
  | some ilk =>
  match dlookup s.vat.urns ilk_id with
  | none => .error (.keyError, s)
  | some urnmap =>
  match dlookup urnmap user_id with
  | none => .error (.keyError, s)
  | some urn =>
    if 0 < ilk.spot ∧
        radOfWad (mulRay urn.ink ilk.spot) < radOfWad (mulRay urn.art ilk.rate) then
      match dlookup s.cat.ilks ilk_id with
      | none => .error (.keyError, s)
      | some milk =>
        let room := s.cat.box - s.cat.litter
        if s.cat.litter < s.cat.box ∧ ilk.dust ≤ room then
          let dart := min urn.art
            (divWRay (divWW (wadOfRad (min milk.dunk room)) (wadOfRay ilk.rate))
              milk.chop)
          let dink := min urn.ink (divWW (mulWW urn.ink dart) urn.art)
          if 0 < dart ∧ 0 < dink then
            if dart ≤ 2 ^ 255 * WAD ∧ dink ≤ 2 ^ 255 * WAD then
              match vat_grab s.vat ilk_id user_id (-dink) (-dart) with
              | .error (e, v') => .error (e, { s with vat := v' })
              | .ok v' =>
                let vow' := vow_fess s.vow (radOfWad (mulRay dart ilk.rate))
                let tab := radOfWad (mulRay (mulRay dart ilk.rate) milk.chop)
                let cat' := { s.cat with litter := s.cat.litter + tab }
                match flipper_kick s.flipper v' user_id "vow" tab dink 0
                    (now + s.flipper.tau) with
                | .error (e, f', v'') =>
                  .error (e, { s with vat := v'', vow := vow', cat := cat', flipper := f' })
                | .ok (f', v'') =>
                  .ok { s with vat := v'', vow := vow', cat := cat', flipper := f' }
            else .error (.overflow, s)
          else .error (.nullAuction, s)
        else .error (.liquidationLimitHit, s)
    else .error (.notUnsafe, s)

/-- The total gem balance a vat records for one ilk (zero if the ilk has no
gem dict at all). -/
def gemSum (v : Vat) (k : String) : Int := dsum ((dlookup v.gem k).getD [])

/-- The normalized debt a bite auctions off, restated as a function of the
pre-bite state: `dart = min(art, min(dunk, box-litter)/rate/chop)` in the
source's fixed-point arithmetic (`getD` defaults are irrelevant whenever the
bite succeeds, since success implies every lookup succeeded). -/
def biteDart (s : St) (ilk_id user_id : String) : Int :=
  let ilk := (dlookup s.vat.ilks ilk_id).getD ⟨0, 0, 0, 0, 0⟩
  let urn := (dlookup2 s.vat.urns ilk_id user_id).getD ⟨0, 0⟩
  let milk := (dlookup s.cat.ilks ilk_id).getD ⟨0, 0⟩
  min urn.art
    (divWRay (divWW (wadOfRad (min milk.dunk (s.cat.box - s.cat.litter)))
      (wadOfRay ilk.rate)) milk.chop)

/-- The tab a bite adds to `litter`, restated as a function of the pre-bite
state: `dart*rate*chop` in the source's fixed-point arithmetic. -/
def biteTab (s : St) (ilk_id user_id : String) : Int :=
  let ilk := (dlookup s.vat.ilks ilk_id).getD ⟨0, 0, 0, 0, 0⟩
  let milk := (dlookup s.cat.ilks ilk_id).getD ⟨0, 0⟩
  radOfWad (mulRay (mulRay (biteDart s ilk_id user_id) ilk.rate) milk.chop)

/-- Zero or more successful `tend`/`dent` calls, on any auctions: the
operations that can run between a bite and the deal of its auction. -/
inductive FlipSteps : St → St → Prop
  | refl (s : St) : FlipSteps s s
  | tend (s t u : St) (bid_id : Nat) (user_id : String) (lot bid now : Int) :
      FlipSteps s t → flipper_tend t bid_id user_id lot bid now = .ok u →
      FlipSteps s u
  | dent (s t u : St) (bid_id : Nat) (user_id : String) (lot bid now : Int) :
      FlipSteps s t → flipper_dent t bid_id user_id lot bid now = .ok u →
      FlipSteps s u

/-! ## Concrete states for the witnesses and counterexamples -/

/-- A vat sitting exactly at its global debt ceiling (`debt = Line = 0`),
with a roomy "eth" ilk and a caller `u` holding unlocked gem. -/
def frobVat₀ : Vat :=
  { ilks := [("eth", ⟨RAY, 100 * RAY, 10 ^ 9 * RAD, 0, 0⟩)]
    urns := [("eth", [])]
    gem := [("eth", [("u", 100 * WAD)])]
    dai := []
    sin := []
    debt := 0
    vice := 0
    Line := 0 }

/-- A vat sitting exactly at a positive global debt ceiling
(`debt = Line = 5 RAD`). -/
def frobVat₁ : Vat :=
  { ilks := [("eth", ⟨RAY, 100 * RAY, 10 ^ 9 * RAD, 0, 5 * WAD⟩)]
    urns := [("eth", [("w", ⟨WAD, 5 * WAD⟩)])]
    gem := [("eth", [("u", 100 * WAD)])]
    dai := [("w", 5 * RAD)]
    sin := []
    debt := 5 * RAD
    vice := 0
    Line := 5 * RAD }

/-- A full simulation state with one unsafe urn (`u`: ink 10, art 20, spot
1.0 < required), a keeper `b` rich in dai, and an empty auction book. -/
def biteSt : St :=
  { vat :=
    { ilks := [("eth", ⟨RAY, RAY, 10 ^ 9 * RAD, RAD, 30 * WAD⟩)]
      urns := [("eth", [("u", ⟨10 * WAD, 20 * WAD⟩)])]
      gem := [("eth", [("cat", 0), ("flipper_eth", 0), ("u", 0), ("b", 0)])]
      dai := [("b", 10 ^ 6 * RAD), ("cat", 0), ("vow", 0)]
      sin := [("vow", 0)]
      debt := 20 * RAD
      vice := 0
      Line := 10 ^ 9 * RAD }
    vow := ⟨0⟩
    cat := { box := 10 ^ 6 * RAD, litter := 0, ilks := [("eth", ⟨RAY, 100 * RAD⟩)] }
    flipper := { ilk := "eth", beg := 105 * 10 ^ 25, ttl := 3, tau := 50,
                 kicks := 0, bids := [] } }

/-- The state `biteSt` after the bite of `u` at timestep 0 (a successful `cat_bite`;
the `getD` fallback is never taken). -/
def biteSt₁ : St := (cat_bite biteSt "eth" "u" 0).toOption.getD biteSt

/-- The state `biteSt₁` after keeper `b` tends auction 1 to its full tab at timestep 0
(a successful `flipper_tend`). -/
def biteSt₂ : St :=
  (flipper_tend biteSt₁ 1 "b" (10 * WAD) (20 * RAD) 0).toOption.getD biteSt

/-- The state `biteSt₂` after auction 1 is dealt at timestep 10 (past its soft
deadline `tic = 3`; a successful `flipper_deal`). -/
def biteSt₃ : St := (flipper_deal biteSt₂ 1 10).toOption.getD biteSt

/-- A state whose only auction never received a bid: `tic = 0`, hard
deadline `end = 5` already passed at `now = 10`. -/
def noBidSt : St :=
  { vat :=
    { ilks := [("eth", ⟨RAY, RAY, 10 ^ 9 * RAD, RAD, 30 * WAD⟩)]
      urns := [("eth", [])]
      gem := [("eth", [("cat", 0), ("flipper_eth", WAD), ("v", 0)])]
      dai := [("cat", 0), ("vow", 0)]
      sin := [("vow", 0)]
      debt := 0
      vice := 0
      Line := 10 ^ 9 * RAD }
    vow := ⟨0⟩
    cat := { box := 10 ^ 6 * RAD, litter := RAD, ilks := [("eth", ⟨RAY, 100 * RAD⟩)] }
    flipper := { ilk := "eth", beg := 105 * 10 ^ 25, ttl := 3, tau := 50,
                 kicks := 1,
                 bids := [(1, ⟨0, WAD, "cat", 0, 5, "v", "vow", RAD⟩)] } }

/-- A state with an undercollateralized urn whose ilk has `spot = 0`:
`ink*spot = 0 < art*rate`, yet the source's extra `spot > 0` conjunct makes
`cat_bite` raise `NotUnsafe`. -/
def spotZeroSt : St :=
  { vat :=
    { ilks := [("eth", ⟨RAY, 0, 10 ^ 9 * RAD, RAD, 30 * WAD⟩)]
      urns := [("eth", [("u", ⟨10 * WAD, 20 * WAD⟩)])]
      gem := [("eth", [("cat", 0), ("flipper_eth", 0), ("u", 0)])]
      dai := [("cat", 0), ("vow", 0)]
      sin := [("vow", 0)]
      debt := 20 * RAD
      vice := 0
      Line := 10 ^ 9 * RAD }
    vow := ⟨0⟩
    cat := { box := 10 ^ 6 * RAD, litter := 0, ilks := [("eth", ⟨RAY, 100 * RAD⟩)] }
    flipper := { ilk := "eth", beg := 105 * 10 ^ 25, ttl := 3, tau := 50,
                 kicks := 0, bids := [] } }

/-- The §8 scenario state: a freshly kicked auction with `tab = 1000`,
`lot = 10`, `beg = 1.05`, current bid 0 and both deadlines open, and a
keeper `k` with ample dai. -/
def tendSt : St :=
  { vat :=
    { ilks := [("eth", ⟨RAY, RAY, 10 ^ 9 * RAD, RAD, 30 * WAD⟩)]
      urns := [("eth", [])]
      gem := [("eth", [("cat", 0), ("flipper_eth", 10 * WAD), ("k", 0)])]
      dai := [("k", 10 ^ 6 * RAD), ("cat", 0), ("vow", 0)]
      sin := [("vow", 0)]
      debt := 0
      vice := 0
      Line := 10 ^ 9 * RAD }
    vow := ⟨0⟩
    cat := { box := 10 ^ 6 * RAD, litter := 1000 * RAD, ilks := [("eth", ⟨RAY, 100 * RAD⟩)] }
    flipper := { ilk := "eth", beg := 105 * 10 ^ 25, ttl := 3, tau := 50,
                 kicks := 1,
                 bids := [(1, ⟨0, 10 * WAD, "cat", 0, 10, "v", "vow", 1000 * RAD⟩)] } }

/-- The result of frobbing `frobVat₀` by `(+1 eth, +1 dai)` (a successful
`vat_frob`; the `getD` fallback is never taken). -/
def frobRes₀ : Vat := (vat_frob frobVat₀ "eth" "u" WAD WAD).toOption.getD frobVat₀

/-- The result of grabbing `(-1, -1)` from the existing urn `u` of
`biteSt.vat` (a successful `vat_grab`; the `getD` fallback is never
taken). -/
def grabRes₀ : Vat :=
  (vat_grab biteSt.vat "eth" "u" (-WAD) (-WAD)).toOption.getD biteSt.vat

/-! ## Lemmas about the dict model -/

theorem dlookup_dset [DecidableEq K] (d : Dict K V) (k k' : K) (v : V) :
    dlookup (dset d k v) k' = if k' = k then some v else dlookup d k' := by
  induction d with
  | nil =>
    by_cases h : k = k'
    · subst h; simp [dset, dlookup]
    · have h' : ¬k' = k := fun hc => h hc.symm
      simp [dset, dlookup, h, h']
  | cons p rest ih =>
    obtain ⟨a, b⟩ := p
    by_cases hak : a = k
    · subst hak
      by_cases h : a = k'
      · subst h; simp [dset, dlookup]
      · have h' : ¬k' = a := fun hc => h hc.symm
        simp [dset, dlookup, h, h']
    · by_cases h : a = k'
      · subst h
        have h' : ¬a = k := hak
        simp [dset, dlookup, hak, h']
      · simp [dset, dlookup, hak, h, ih]

theorem dmodify_eq_some [DecidableEq K] {d d' : Dict K V} {k : K} {f : V → V}
    (h : dmodify d k f = some d') (k' : K) :
    dlookup d' k' = if k' = k then (dlookup d k').map f else dlookup d k' := by
  induction d generalizing d' with
  | nil => simp [dmodify] at h
  | cons p rest ih =>
    obtain ⟨a, b⟩ := p
    by_cases hak : a = k
    · subst hak
      simp only [dmodify, if_pos, Option.some.injEq] at h
      subst h
      by_cases h' : a = k'
      · subst h'; simp [dlookup]
      · have h'' : ¬k' = a := fun hc => h' hc.symm
        simp [dlookup, h', h'']
    · simp only [dmodify, if_neg hak] at h
      cases hr : dmodify rest k f with
      | none => rw [hr] at h; simp at h
      | some r =>
        rw [hr] at h
        simp only [Option.map_some', Option.some.injEq] at h
        subst h
        by_cases h' : a = k'
        · subst h'
          have h'' : ¬a = k := hak
          simp [dlookup, h'']
        · simp [dlookup, h', ih hr]

theorem dmodify_isSome [DecidableEq K] (d : Dict K V) (k : K) (f : V → V) :
    (dmodify d k f).isSome = (dlookup d k).isSome := by
  induction d with
  | nil => simp [dmodify, dlookup]
  | cons p rest ih =>
    obtain ⟨a, b⟩ := p
    by_cases hak : a = k
    · subst hak; simp [dmodify, dlookup]
    · simp only [dmodify, dlookup, if_neg hak]
      rw [← ih]
      cases dmodify rest k f <;> simp

theorem dsum_dmodify [DecidableEq K] {d d' : Dict K Int} {k : K} {f : Int → Int}
    (h : dmodify d k f = some d') :
    ∃ v, dlookup d k = some v ∧ dsum d' = dsum d + (f v - v) := by
  induction d generalizing d' with
  | nil => simp [dmodify] at h
  | cons p rest ih =>
    obtain ⟨a, b⟩ := p
    by_cases hak : a = k
    · subst hak
      simp only [dmodify, if_pos, Option.some.injEq] at h
      subst h
      refine ⟨b, by simp [dlookup], ?_⟩
      simp [dsum]
      ring
    · simp only [dmodify, if_neg hak] at h
      cases hr : dmodify rest k f with
      | none => rw [hr] at h; simp at h
      | some r =>
        rw [hr] at h
        simp only [Option.map_some', Option.some.injEq] at h
        obtain ⟨v, hv, hs⟩ := ih hr
        refine ⟨v, by simp [dlookup, hak, hv], ?_⟩
        rw [← h]
        simp [dsum] at hs ⊢
        omega

theorem dlookup_eq_none_of_not_mem [DecidableEq K] {d : Dict K V} {k : K}
    (h : k ∉ d.map Prod.fst) : dlookup d k = none := by
  induction d with
  | nil => rfl
  | cons p rest ih =>
    obtain ⟨a, b⟩ := p
    simp only [List.map_cons, List.mem_cons] at h
    push_neg at h
    have h' : ¬a = k := fun hc => h.1 hc.symm
    simp [dlookup, h', ih h.2]

theorem dlookup_ddel_of_nodup [DecidableEq K] (d : Dict K V) (k : K)
    (hnd : (d.map Prod.fst).Nodup) : dlookup (ddel d k) k = none := by
  induction d with
  | nil => rfl
  | cons p rest ih =>
    obtain ⟨a, b⟩ := p
    simp only [List.map_cons, List.nodup_cons] at hnd
    by_cases hak : a = k
    · subst hak
      simp only [ddel, if_pos]
      exact dlookup_eq_none_of_not_mem hnd.1
    · simp [ddel, hak, dlookup, ih hnd.2]

theorem dmodify_exists_of_lookup [DecidableEq K] {d : Dict K V} {k : K}
    (f : V → V) (h : (dlookup d k).isSome) : ∃ d', dmodify d k f = some d' := by
  have := dmodify_isSome d k f
  rw [h] at this
  cases hm : dmodify d k f with
  | none => rw [hm] at this; simp at this
  | some r => exact ⟨r, rfl⟩

/-! ## Inversion lemmas for the ledger primitives -/

theorem vat_move_err {v v' : Vat} {src dst : String} {rad : Int} {e : Err}
    (h : vat_move v src dst rad = .error (e, v')) : e = .keyError := by
  simp only [vat_move] at h
  split at h
  · cases h; rfl
  · split at h
    · cases h; rfl
    · cases h

theorem vat_flux_err {v v' : Vat} {ilk_id src dst : String} {wad : Int} {e : Err}
    (h : vat_flux v ilk_id src dst wad = .error (e, v')) : e = .keyError := by
  simp only [vat_flux] at h
  split at h
  · cases h; rfl
  · split at h
    · cases h; rfl
    · split at h
      · cases h; rfl
      · cases h

theorem vat_grab_err {v v' : Vat} {ilk_id user_id : String} {dink dart : Int} {e : Err}
    (h : vat_grab v ilk_id user_id dink dart = .error (e, v')) : e = .keyError := by
  simp only [vat_grab] at h
  split at h
  · cases h; rfl
  · split at h
    · cases h; rfl
    · split at h
      · cases h; rfl
      · split at h
        · cases h; rfl
        · split at h
          · cases h; rfl
          · split at h
            · cases h; rfl
            · cases h

theorem flipper_kick_err {f f' : Flipper} {v v' : Vat} {user_id gal : String}
    {tab lot bid end_ : Int} {e : Err}
    (h : flipper_kick f v user_id gal tab lot bid end_ = .error (e, f', v')) :
    e = .keyError := by
  simp only [flipper_kick] at h
  split at h
  · rename_i e₀ v₀ heq
    cases h
    exact vat_flux_err heq
  · cases h

/-- Success inversion for `vat_move`: the two balances both existed, the
source lost `rad`, the destination gained it, and nothing else changed. -/
theorem vat_move_ok {v v' : Vat} {src dst : String} {rad : Int}
    (h : vat_move v src dst rad = .ok v') :
    ∃ d₁, dmodify v.dai src (fun x => x - rad) = some d₁ ∧
      dmodify d₁ dst (fun x => x + rad) = some v'.dai ∧
      v' = { v with dai := v'.dai } := by
  simp only [vat_move] at h
  split at h
  · cases h
  · rename_i d₁ h₁
    split at h
    · cases h
    · rename_i d₂ h₂
      cases h
      exact ⟨d₁, h₁, h₂, rfl⟩

/-- Success inversion for `vat_flux`: the gem dict of the ilk existed, both
balances existed, and the new state only replaces that gem dict. -/
theorem vat_flux_ok {v v' : Vat} {ilk_id src dst : String} {wad : Int}
    (h : vat_flux v ilk_id src dst wad = .ok v') :
    ∃ g g₁ g₂, dlookup v.gem ilk_id = some g ∧
      dmodify g src (fun x => x - wad) = some g₁ ∧
      dmodify g₁ dst (fun x => x + wad) = some g₂ ∧
      v' = { v with gem := dset v.gem ilk_id g₂ } := by
  simp only [vat_flux] at h
  split at h
  · cases h
  · rename_i g hg
    split at h
    · cases h
    · rename_i g₁ h₁
      split at h
      · cases h
      · rename_i g₂ h₂
        cases h
        exact ⟨g, g₁, g₂, hg, h₁, h₂, rfl⟩

/-- On success of `vat_move`, the total dai is conserved and every other field
of the vat is untouched. -/
theorem vat_move_effects {v v' : Vat} {src dst : String} {rad : Int}
    (h : vat_move v src dst rad = .ok v') :
    dsum v'.dai = dsum v.dai ∧ v'.gem = v.gem ∧ v'.urns = v.urns ∧
      v'.ilks = v.ilks ∧ v'.sin = v.sin ∧ v'.debt = v.debt ∧
      v'.vice = v.vice ∧ v'.Line = v.Line := by
  obtain ⟨d₁, h₁, h₂, hv⟩ := vat_move_ok h
  obtain ⟨a, _, ha⟩ := dsum_dmodify h₁
  obtain ⟨b, _, hb⟩ := dsum_dmodify h₂
  refine ⟨?_, by rw [hv], by rw [hv], by rw [hv], by rw [hv], by rw [hv],
    by rw [hv], by rw [hv]⟩
  rw [hb, ha]
  ring

/-- On success of `vat_flux`, every per-ilk gem total is conserved and every
other field of the vat is untouched. -/
theorem vat_flux_effects {v v' : Vat} {ilk_id src dst : String} {wad : Int}
    (h : vat_flux v ilk_id src dst wad = .ok v') :
    (∀ k, gemSum v' k = gemSum v k) ∧ v'.dai = v.dai ∧ v'.urns = v.urns ∧
      v'.ilks = v.ilks ∧ v'.sin = v.sin ∧ v'.debt = v.debt ∧
      v'.vice = v.vice ∧ v'.Line = v.Line := by
  obtain ⟨g, g₁, g₂, hg, h₁, h₂, hv⟩ := vat_flux_ok h
  obtain ⟨a, _, ha⟩ := dsum_dmodify h₁
  obtain ⟨b, _, hb⟩ := dsum_dmodify h₂
  refine ⟨?_, by rw [hv], by rw [hv], by rw [hv], by rw [hv], by rw [hv],
    by rw [hv], by rw [hv]⟩
  intro k
  rw [hv]
  show dsum ((dlookup (dset v.gem ilk_id g₂) k).getD []) = _
  rw [dlookup_dset]
  by_cases hk : k = ilk_id
  · subst hk
    simp only [if_pos]
    unfold gemSum
    rw [hg]
    simp only [Option.getD_some]
    rw [hb, ha]
    ring
  · simp only [if_neg hk]
    rfl

/-- Success inversion for `vat_frob`: all lookups succeeded, the three
asserts held, and the new vat is exactly the written-back state. -/
theorem vat_frob_ok {vat v' : Vat} {ilk_id user_id : String} {dink dart : Int}
    (h : vat_frob vat ilk_id user_id dink dart = .ok v') :
    ∃ urnmap ilk g g₁,
      dlookup vat.urns ilk_id = some urnmap ∧
      dlookup vat.ilks ilk_id = some ilk ∧
      dlookup vat.gem ilk_id = some g ∧
      dmodify g user_id (fun x => x - dink) = some g₁ ∧
      (dart ≤ 0 ∨ (radOfWad (mulRay (ilk.Art + dart) ilk.rate) ≤ ilk.line ∧
        vat.debt ≤ vat.Line)) ∧
      ((dart ≤ 0 ∧ 0 ≤ dink) ∨
        radOfRay (rmulW ilk.rate (((dlookup urnmap user_id).getD ⟨0, 0⟩).art + dart)) ≤
          radOfWad (mulRay (((dlookup urnmap user_id).getD ⟨0, 0⟩).ink + dink) ilk.spot)) ∧
      (((dlookup urnmap user_id).getD ⟨0, 0⟩).art + dart = 0 ∨
        ilk.dust ≤ radOfRay (rmulW ilk.rate (((dlookup urnmap user_id).getD ⟨0, 0⟩).art + dart))) ∧
      v' = { vat with
             debt := vat.debt + radOfRay (rmulW ilk.rate dart),
             gem := dset vat.gem ilk_id g₁,
             dai := dset vat.dai user_id
               ((dlookup vat.dai user_id).getD 0 + radOfRay (rmulW ilk.rate dart)),
             urns := dset vat.urns ilk_id (dset urnmap user_id
               ⟨((dlookup urnmap user_id).getD ⟨0, 0⟩).ink + dink,
                ((dlookup urnmap user_id).getD ⟨0, 0⟩).art + dart⟩),
             ilks := dset vat.ilks ilk_id { ilk with Art := ilk.Art + dart } } := by
  simp only [vat_frob] at h
  split at h
  · cases h
  · rename_i urnmap hum
    split at h
    · cases h
    · rename_i ilk hik
      split at h
      · rename_i h1
        split at h
        · rename_i h2
          split at h
          · rename_i h3
            split at h
            · cases h
            · rename_i g hg
              split at h
              · cases h
              · rename_i g₁ hg₁
                cases h
                exact ⟨urnmap, ilk, g, g₁, hum, hik, hg, hg₁, h1, h2, h3, rfl⟩
          · cases h
        · cases h
      · cases h

/-- Error inversion for `vat_frob` when the ilk, the urn dict and the
caller's gem record all exist: the only failures are the three documented
asserts, and they leave the vat unchanged. -/
theorem vat_frob_error {vat v' : Vat} {ilk_id user_id : String}
    {dink dart : Int} {e : Err} {urnmap : Dict String Urn} {ilk : Ilk}
    {g : Dict String Int}
    (hum : dlookup vat.urns ilk_id = some urnmap)
    (hik : dlookup vat.ilks ilk_id = some ilk)
    (hg : dlookup vat.gem ilk_id = some g)
    (hgu : (dlookup g user_id).isSome)
    (h : vat_frob vat ilk_id user_id dink dart = .error (e, v')) :
    (e = .ceilingExceeded ∨ e = .notSafe ∨ e = .dustViolation) ∧ v' = vat := by
  obtain ⟨g₁, hg₁⟩ := dmodify_exists_of_lookup (fun x => x - dink) hgu
  simp only [vat_frob, hum, hik, hg, hg₁] at h
  split at h
  · split at h
    · split at h
      · cases h
      · cases h
        exact ⟨Or.inr (Or.inr rfl), rfl⟩
    · cases h
      exact ⟨Or.inr (Or.inl rfl), rfl⟩
  · cases h
    exact ⟨Or.inl rfl, rfl⟩

/-- Success inversion for `flipper_kick`: the escrow flux succeeded and the
new flipper carries the fresh auction record under id `kicks + 1`. -/
theorem flipper_kick_ok {f f' : Flipper} {v v' : Vat} {user_id gal : String}
    {tab lot bid end_ : Int}
    (h : flipper_kick f v user_id gal tab lot bid end_ = .ok (f', v')) :
    vat_flux v f.ilk "cat" "flipper_eth" lot = .ok v' ∧
      f' = { f with
             kicks := f.kicks + 1,
             bids := dset f.bids (f.kicks + 1)
               ⟨bid, lot, "cat", 0, end_, user_id, gal, tab⟩ } := by
  simp only [flipper_kick] at h
  split at h
  · cases h
  · rename_i v₀ hf
    cases h
    exact ⟨hf, rfl⟩

/-- Success inversion for `flipper_deal`: the record existed, the deadline
condition held, the escrow flux succeeded, and the new state is the old one
with the tab clawed back, the escrow released and the record deleted. -/
theorem flipper_deal_ok {s s' : St} {bid_id : Nat} {now : Int}
    (h : flipper_deal s bid_id now = .ok s') :
    ∃ curr v', dlookup s.flipper.bids bid_id = some curr ∧
      curr.tic ≠ 0 ∧ (curr.tic ≤ now ∨ curr.end_ ≤ now) ∧
      vat_flux s.vat s.flipper.ilk "flipper_eth" curr.guy curr.lot = .ok v' ∧
      s' = { s with
             vat := v',
             cat := cat_claw s.cat curr.tab,
             flipper := { s.flipper with
                          bids := ddel s.flipper.bids bid_id } } := by
  simp only [flipper_deal] at h
  split at h
  · cases h
  · rename_i curr hcurr
    split at h
    · rename_i hcond
      split at h
      · cases h
      · rename_i v' hflux
        cases h
        exact ⟨curr, v', hcurr, hcond.1, hcond.2, hflux, rfl⟩
    · cases h

/-- On success of `flipper_tend`, the cat, the vow, the gem dicts, the total dai
and every auction record's `tab` are all unchanged. -/
theorem flipper_tend_effects {s s' : St} {bid_id : Nat} {user_id : String}
    {lot bid now : Int}
    (h : flipper_tend s bid_id user_id lot bid now = .ok s') :
    s'.cat = s.cat ∧ s'.vow = s.vow ∧
      dsum s'.vat.dai = dsum s.vat.dai ∧ s'.vat.gem = s.vat.gem ∧
      ∀ id, (dlookup s'.flipper.bids id).map BidRec.tab =
        (dlookup s.flipper.bids id).map BidRec.tab := by
  simp only [flipper_tend] at h
  split at h
  · cases h
  · rename_i curr hcurr
    split at h
    · split at h
      · split at h
        · split at h
          · split at h
            · split at h
              · split at h
                · cases h
                · rename_i v₁ curr₁ heq
                  have hstep : dsum v₁.dai = dsum s.vat.dai ∧ v₁.gem = s.vat.gem ∧
                      curr₁.tab = curr.tab := by
                    split at heq
                    · cases heq
                      exact ⟨rfl, rfl, rfl⟩
                    · split at heq
                      · cases heq
                      · rename_i v₀ hmv
                        cases heq
                        obtain ⟨hd, hg, -⟩ := vat_move_effects hmv
                        exact ⟨hd, hg, rfl⟩
                  split at h
                  · cases h
                  · rename_i v₂ hmv₂
                    cases h
                    obtain ⟨hd₂, hg₂, -⟩ := vat_move_effects hmv₂
                    refine ⟨rfl, rfl, by rw [hd₂, hstep.1], by rw [hg₂, hstep.2.1], ?_⟩
                    intro id
                    show (dlookup (dset s.flipper.bids bid_id _) id).map BidRec.tab = _
                    rw [dlookup_dset]
                    by_cases hid : id = bid_id
                    · subst hid
                      rw [if_pos rfl, hcurr]
                      show some curr₁.tab = some curr.tab
                      rw [hstep.2.2]
                    · rw [if_neg hid]
              · cases h
            · cases h
          · cases h
        · cases h
      · cases h
    · cases h


/-- On success of `flipper_dent`, the cat, the vow, the total dai, every per-ilk
gem total and every auction record's `tab` are all unchanged. -/
theorem flipper_dent_effects {s s' : St} {bid_id : Nat} {user_id : String}
    {lot bid now : Int}
    (h : flipper_dent s bid_id user_id lot bid now = .ok s') :
    s'.cat = s.cat ∧ s'.vow = s.vow ∧
      dsum s'.vat.dai = dsum s.vat.dai ∧ (∀ k, gemSum s'.vat k = gemSum s.vat k) ∧
      ∀ id, (dlookup s'.flipper.bids id).map BidRec.tab =
        (dlookup s.flipper.bids id).map BidRec.tab := by
  simp only [flipper_dent] at h
  split at h
  · cases h
  · rename_i curr hcurr
    split at h
    · split at h
      · split at h
        · split at h
          · split at h
            · split at h
              · split at h
                · cases h
                · rename_i v₁ curr₁ heq
                  have hstep : dsum v₁.dai = dsum s.vat.dai ∧ v₁.gem = s.vat.gem ∧
                      curr₁.tab = curr.tab := by
                    split at heq
                    · cases heq
                      exact ⟨rfl, rfl, rfl⟩
                    · split at heq
                      · cases heq
                      · rename_i v₀ hmv
                        cases heq
                        obtain ⟨hd, hg, -⟩ := vat_move_effects hmv
                        exact ⟨hd, hg, rfl⟩
                  split at h
                  · cases h
                  · rename_i v₂ hfl₂
                    cases h
                    obtain ⟨hgs₂, hd₂, -⟩ := vat_flux_effects hfl₂
                    refine ⟨rfl, rfl, by rw [hd₂, hstep.1], ?_, ?_⟩
                    · intro k
                      have : gemSum v₁ k = gemSum s.vat k := by
                        unfold gemSum
                        rw [hstep.2.1]
                      rw [hgs₂ k, this]
                    · intro id
                      show (dlookup (dset s.flipper.bids bid_id _) id).map BidRec.tab = _
                      rw [dlookup_dset]
                      by_cases hid : id = bid_id
                      · subst hid
                        rw [if_pos rfl, hcurr]
                        show some curr₁.tab = some curr.tab
                        rw [hstep.2.2]
                      · rw [if_neg hid]
              · cases h
            · cases h
          · cases h
        · cases h
      · cases h
    · cases h

/-- Success inversion for `cat_bite`: every lookup and check succeeded, with
`dart`, `dink` and `tab` the computed amounts, the grab and the kick
succeeded, and the new state is the written-back one (litter increased by
exactly `tab`, which is also the `tab` of the freshly kicked auction). -/
theorem cat_bite_ok {s s' : St} {ilk_id user_id : String} {now : Int}
    (h : cat_bite s ilk_id user_id now = .ok s') :
    ∃ ilk urnmap urn milk v' f' v'',
      dlookup s.vat.ilks ilk_id = some ilk ∧
      dlookup s.vat.urns ilk_id = some urnmap ∧
      dlookup urnmap user_id = some urn ∧
      dlookup s.cat.ilks ilk_id = some milk ∧
      (0 < ilk.spot ∧ radOfWad (mulRay urn.ink ilk.spot) <
        radOfWad (mulRay urn.art ilk.rate)) ∧
      (s.cat.litter < s.cat.box ∧ ilk.dust ≤ s.cat.box - s.cat.litter) ∧
      ∃ dart dink tab,
        dart = min urn.art
          (divWRay (divWW (wadOfRad (min milk.dunk (s.cat.box - s.cat.litter)))
            (wadOfRay ilk.rate)) milk.chop) ∧
        dink = min urn.ink (divWW (mulWW urn.ink dart) urn.art) ∧
        tab = radOfWad (mulRay (mulRay dart ilk.rate) milk.chop) ∧
        (0 < dart ∧ 0 < dink) ∧
        vat_grab s.vat ilk_id user_id (-dink) (-dart) = .ok v' ∧
        flipper_kick s.flipper v' user_id "vow" tab dink 0
          (now + s.flipper.tau) = .ok (f', v'') ∧
        s' = { s with
               vat := v'',
               vow := vow_fess s.vow (radOfWad (mulRay dart ilk.rate)),
               cat := { s.cat with litter := s.cat.litter + tab },
               flipper := f' } := by
  simp only [cat_bite] at h
  split at h
  · cases h
  · rename_i ilk hik
    split at h
    · cases h
    · rename_i urnmap hum
      split at h
      · cases h
      · rename_i urn hu
        split at h
        · rename_i hunsafe
          split at h
          · cases h
          · rename_i milk hmilk
            split at h
            · rename_i hlimit
              split at h
              · rename_i hnull
                split at h
                · rename_i hover
                  split at h
                  · cases h
                  · rename_i v' hgrab
                    split at h
                    · cases h
                    · rename_i f' v'' hkick
                      cases h
                      exact ⟨ilk, urnmap, urn, milk, v', f', v'', hik, hum, hu, hmilk,
                        hunsafe, hlimit, _, _, _, rfl, rfl, rfl, hnull,
                        hgrab, hkick, rfl⟩
                · cases h
              · cases h
            · cases h
        · cases h

/-- Tend/dent chains preserve the cat (hence `litter`) and the `tab` of
every auction record. -/
theorem FlipSteps_preserves {s t : St} (h : FlipSteps s t) :
    t.cat = s.cat ∧ ∀ id, (dlookup t.flipper.bids id).map BidRec.tab =
      (dlookup s.flipper.bids id).map BidRec.tab := by
  induction h with
  | refl => exact ⟨rfl, fun _ => rfl⟩
  | tend t u bid_id user_id lot bid now hst hok ih =>
    obtain ⟨hc, -, -, -, htab⟩ := flipper_tend_effects hok
    exact ⟨hc.trans ih.1, fun id => (htab id).trans (ih.2 id)⟩
  | dent t u bid_id user_id lot bid now hst hok ih =>
    obtain ⟨hc, -, -, -, htab⟩ := flipper_dent_effects hok
    exact ⟨hc.trans ih.1, fun id => (htab id).trans (ih.2 id)⟩

/-- C4: liquidation conservation round trip.  For every successful
`cat_bite`, `cat.litter` afterwards equals `cat.litter` before plus exactly
`dart*rate*chop` (the auction's tab, in the source's exact fixed-point
arithmetic); and after the matching `flipper_deal` of the auction kicked by
that bite — with any successful tend/dent bidding in between — `cat.litter`
returns exactly to its pre-bite value: `deal` subtracts the same tab via
`cat_claw`, with no drift. -/
theorem c4_conservation (s s₁ t u : St) (ilk_id user_id : String)
    (now now' : Int)
    (hb : cat_bite s ilk_id user_id now = .ok s₁)
    (hm : FlipSteps s₁ t)
    (hd : flipper_deal t s₁.flipper.kicks now' = .ok u) :
    s₁.cat.litter = s.cat.litter + biteTab s ilk_id user_id ∧
      u.cat.litter = s.cat.litter := by
  obtain ⟨ilk, urnmap, urn, milk, v', f', v'', hik, hum, hu, hmilk, -, -,
    dart, dink, tab, hdart, hdink, htab, -, hgrab, hkick, hs₁⟩ := cat_bite_ok hb
  obtain ⟨hflux, hf'⟩ := flipper_kick_ok hkick
  have htabeq : biteTab s ilk_id user_id = tab := by
    simp only [biteTab, biteDart, dlookup2, hik, hmilk, hum, Option.some_bind,
      hu, Option.getD_some]
    rw [htab, hdart]
  have hlit₁ : s₁.cat.litter = s.cat.litter + tab := by rw [hs₁]
  have hfl₁ : s₁.flipper = f' := by rw [hs₁]
  have hkicks : s₁.flipper.kicks = s.flipper.kicks + 1 := by rw [hfl₁, hf']
  have hlook : dlookup s₁.flipper.bids s₁.flipper.kicks =
      some ⟨0, dink, "cat", 0, now + s.flipper.tau, user_id, "vow", tab⟩ := by
    rw [hfl₁, hf']
    simp [dlookup_dset]
  obtain ⟨hcat, htabmap⟩ := FlipSteps_preserves hm
  obtain ⟨curr, vfl, hcurr, -, -, hfluxd, hueq⟩ := flipper_deal_ok hd
  have hcurrtab : curr.tab = tab := by
    have hmap := htabmap s₁.flipper.kicks
    rw [hcurr, hlook] at hmap
    exact Option.some.inj hmap
  have hulit : u.cat.litter = t.cat.litter - curr.tab := by rw [hueq]; rfl
  have htlit : t.cat.litter = s₁.cat.litter := by rw [hcat]
  constructor
  · rw [hlit₁, htabeq]
  · rw [hulit, htlit, hlit₁, hcurrtab]
    ring

set_option maxRecDepth 10000 in
/-- C4 witness: the round trip on the concrete run `biteSt` — bite, tend to
the tab, deal — where litter rises by exactly the bite tab and returns to
its pre-bite value. -/
theorem c4_conservation_witness :
    biteSt₁.cat.litter = biteSt.cat.litter + biteTab biteSt "eth" "u" ∧
      biteSt₃.cat.litter = biteSt.cat.litter :=
  c4_conservation biteSt biteSt₁ biteSt₂ biteSt₃ "eth" "u" 0 10 (by rfl)
    (FlipSteps.tend biteSt₁ biteSt₁ biteSt₂ 1 "b" (10 * WAD) (20 * RAD) 0
      (FlipSteps.refl biteSt₁) (by rfl))
    (by rfl)

/-- C8: calling `flipper_deal` twice with the same auction id.  The first
successful call decreases `litter` by the auction's recorded tab and deletes
the Bid record; the second call fails with the not-found consistency error
(the `KeyError` on the vanished id) before performing any state mutation, so
litter is decreased and escrow released exactly once.  The id keys of a
Python dict are unique, taken here as the `Nodup` hypothesis. -/
theorem c8_deal_idempotent (s s' : St) (bid_id : Nat) (now : Int)
    (hnd : (s.flipper.bids.map Prod.fst).Nodup)
    (h : flipper_deal s bid_id now = .ok s') :
    dlookup s'.flipper.bids bid_id = none ∧
      (∀ now', flipper_deal s' bid_id now' = .error (.keyError, s')) ∧
      s'.cat.litter = s.cat.litter -
        ((dlookup s.flipper.bids bid_id).getD ⟨0, 0, "", 0, 0, "", "", 0⟩).tab := by
  obtain ⟨curr, v', hcurr, -, -, hflux, hs'⟩ := flipper_deal_ok h
  have hbids : s'.flipper.bids = ddel s.flipper.bids bid_id := by rw [hs']
  have hnone : dlookup s'.flipper.bids bid_id = none := by
    rw [hbids]
    exact dlookup_ddel_of_nodup _ _ hnd
  refine ⟨hnone, ?_, ?_⟩
  · intro now'
    unfold flipper_deal
    rw [hnone]
  · rw [hs', hcurr]
    rfl

set_option maxRecDepth 10000 in
/-- C8 witness: on the concrete run, dealing auction 1 a second time fails
with the not-found error and leaves the state exactly as the first deal left
it. -/
theorem c8_deal_idempotent_witness :
    dlookup biteSt₃.flipper.bids 1 = none ∧
      flipper_deal biteSt₃ 1 99 = .error (.keyError, biteSt₃) := by
  obtain ⟨h1, h2, -⟩ := c8_deal_idempotent biteSt₂ biteSt₃ 1 10 (by decide) (by rfl)
  exact ⟨h1, h2 99⟩

/-- C5 (amended): for an existing urn, `cat_bite` raises `NotUnsafe` exactly
when the source's guard `spot > 0 and ink*spot < art*rate` fails — i.e.
not-unsafe positions are rejected, but so is any position of an ilk with
`spot = 0`, however undercollateralized, contrary to the claim's
`ink*spot < art*rate` criterion alone. -/
theorem c5_amended (s : St) (ilk_id user_id : String) (now : Int)
    (ilk : Ilk) (urnmap : Dict String Urn) (urn : Urn)
    (hik : dlookup s.vat.ilks ilk_id = some ilk)
    (hum : dlookup s.vat.urns ilk_id = some urnmap)
    (hu : dlookup urnmap user_id = some urn) :
    cat_bite s ilk_id user_id now = .error (.notUnsafe, s) ↔
      ¬(0 < ilk.spot ∧ radOfWad (mulRay urn.ink ilk.spot) <
        radOfWad (mulRay urn.art ilk.rate)) := by
  simp only [cat_bite, hik, hum, hu]
  constructor
  · intro heq hcond
    rw [if_pos hcond] at heq
    split at heq
    · cases heq
    · split at heq
      · split at heq
        · split at heq
          · split at heq
            · rename_i e v' hgrab
              simp only [Except.error.injEq, Prod.mk.injEq] at heq
              have h2 := vat_grab_err hgrab
              rw [heq.1] at h2
              exact absurd h2 (by decide)
            · split at heq
              · rename_i e f' v'' hkick
                simp only [Except.error.injEq, Prod.mk.injEq] at heq
                have h2 := flipper_kick_err hkick
                rw [heq.1] at h2
                exact absurd h2 (by decide)
              · cases heq
          · cases heq
        · cases heq
      · cases heq
  · intro hn
    rw [if_neg hn]

/-- C5 counterexample: in `spotZeroSt` the urn satisfies
`ink*spot = 0 < art*rate`, yet `cat_bite` fails with `NotUnsafe` — refuting
the claim that whenever `ink*spot < art*rate` holds (including `spot = 0`
with positive debt) bite does not fail with `NotUnsafe`. -/
theorem c5_counterexample :
    radOfWad (mulRay (10 * WAD) 0) < radOfWad (mulRay (20 * WAD) RAY) ∧
      cat_bite spotZeroSt "eth" "u" 0 = .error (.notUnsafe, spotZeroSt) :=
  ⟨by decide, by rfl⟩

/-- C5 witness: the amended equivalence applied to `spotZeroSt`, whose guard
fails because `spot = 0`. -/
theorem c5_amended_witness :
    cat_bite spotZeroSt "eth" "u" 0 = .error (.notUnsafe, spotZeroSt) :=
  (c5_amended spotZeroSt "eth" "u" 0 ⟨RAY, 0, 10 ^ 9 * RAD, RAD, 30 * WAD⟩
    [("u", ⟨10 * WAD, 20 * WAD⟩)] ⟨10 * WAD, 20 * WAD⟩ (by rfl) (by rfl)
    (by rfl)).mpr (by decide)

/-- C3 (amended): for an existing auction id, `flipper_deal` fails
`NotFinished` exactly when the source's guard `tic != 0 and (tic <= now or
end <= now)` fails.  In particular an auction that never received a bid
(`tic = 0`) can never be dealt, no matter how far past its hard deadline —
contrary to the claim that it succeeds once `now >= end`. -/
theorem c3_amended (s : St) (bid_id : Nat) (now : Int) (curr : BidRec)
    (hcurr : dlookup s.flipper.bids bid_id = some curr) :
    flipper_deal s bid_id now = .error (.notFinished, s) ↔
      ¬(curr.tic ≠ 0 ∧ (curr.tic ≤ now ∨ curr.end_ ≤ now)) := by
  simp only [flipper_deal, hcurr]
  constructor
  · intro heq hcond
    rw [if_pos hcond] at heq
    split at heq
    · rename_i e v' hflux
      simp only [Except.error.injEq, Prod.mk.injEq] at heq
      have h2 := vat_flux_err hflux
      rw [heq.1] at h2
      exact absurd h2 (by decide)
    · cases heq
  · intro hn
    rw [if_neg hn]

/-- C3 counterexample: the never-bid auction of `noBidSt` (`tic = 0`) is
past its hard deadline (`end = 5 ≤ now = 10`), yet `flipper_deal` fails
`NotFinished` — refuting "succeeds once `now >= end` regardless of `tic`". -/
theorem c3_counterexample :
    dlookup noBidSt.flipper.bids 1 =
        some ⟨0, WAD, "cat", 0, 5, "v", "vow", RAD⟩ ∧
      (5 : Int) ≤ 10 ∧
      flipper_deal noBidSt 1 10 = .error (.notFinished, noBidSt) :=
  ⟨by rfl, by decide, by rfl⟩

/-- C3 witness: the amended equivalence applied to `noBidSt` at `now = 10`. -/
theorem c3_amended_witness :
    flipper_deal noBidSt 1 10 = .error (.notFinished, noBidSt) :=
  (c3_amended noBidSt 1 10 ⟨0, WAD, "cat", 0, 5, "v", "vow", RAD⟩ (by rfl)).mpr
    (by decide)

theorem dlookup_isSome_dmodify [DecidableEq K] {d d' : Dict K V} {k : K}
    {f : V → V} (h : dmodify d k f = some d') (k' : K) :
    (dlookup d' k').isSome = (dlookup d k').isSome := by
  rw [dmodify_eq_some h k']
  by_cases hk : k' = k
  · rw [if_pos hk]
    cases dlookup d k' <;> rfl
  · rw [if_neg hk]

/-- Success of `vat_move` is guaranteed whenever both dai records exist, for any amount
(there is no balance check), and preserves which dai records exist. -/
theorem vat_move_exists {v : Vat} {src dst : String} (rad : Int)
    (h1 : (dlookup v.dai src).isSome) (h2 : (dlookup v.dai dst).isSome) :
    ∃ v', vat_move v src dst rad = .ok v' ∧
      ∀ k, (dlookup v'.dai k).isSome = (dlookup v.dai k).isSome := by
  obtain ⟨d₁, hd₁⟩ := dmodify_exists_of_lookup (fun x => x - rad) h1
  have h2' : (dlookup d₁ dst).isSome := by
    rw [dlookup_isSome_dmodify hd₁]
    exact h2
  obtain ⟨d₂, hd₂⟩ := dmodify_exists_of_lookup (fun x => x + rad) h2'
  refine ⟨{ v with dai := d₂ }, ?_, ?_⟩
  · simp only [vat_move, hd₁, hd₂]
  · intro k
    show (dlookup d₂ k).isSome = _
    rw [dlookup_isSome_dmodify hd₂, dlookup_isSome_dmodify hd₁]

/-- C6 (amended): on an auction whose current bid is zero with both
deadlines open, any positive tend bid up to the tab is accepted, because the
minimum-increment lower bound `curr.bid * beg = 0 * beg = 0` is vacuous off
a zero bid: in the §8 scenario (`tab = 1000`, `lot = 10`, `beg = 1.05`) the
first bid of 100 succeeds rather than being rejected with
`insufficient-increase`.  (The dai records of the bidder, the incumbent and
the beneficiary must exist for the transfers to go through.) -/
theorem c6_amended (s : St) (bid_id : Nat) (user_id : String) (bid now : Int)
    (curr : BidRec)
    (hcurr : dlookup s.flipper.bids bid_id = some curr)
    (hbid0 : curr.bid = 0) (htic : curr.tic = 0) (hend : now < curr.end_)
    (hpos : 0 < bid) (htab : bid ≤ curr.tab)
    (hdu : (dlookup s.vat.dai user_id).isSome)
    (hdg : (dlookup s.vat.dai curr.guy).isSome)
    (hdgal : (dlookup s.vat.dai curr.gal).isSome) :
    (flipper_tend s bid_id user_id curr.lot bid now).toOption.isSome = true := by
  simp only [flipper_tend, hcurr]
  rw [if_pos (Or.inr htic), if_pos hend, if_pos trivial, if_pos htab,
    if_pos (lt_of_le_of_lt (le_of_eq hbid0) hpos),
    if_pos (Or.inl (by
      rw [hbid0]
      simp only [mulRay, zero_mul, Int.zero_tdiv]
      exact le_of_lt hpos))]
  by_cases hg : user_id = curr.guy
  · rw [if_pos hg]
    obtain ⟨v₂, hm₂, -⟩ := vat_move_exists (bid - curr.bid) hdu hdgal
    simp [hm₂, Except.toOption]
  · rw [if_neg hg]
    obtain ⟨v₁, hm₁, hpres⟩ := vat_move_exists curr.bid hdu hdg
    obtain ⟨v₂, hm₂, -⟩ := vat_move_exists (bid - curr.bid)
      (by rw [hpres]; exact hdu) (by rw [hpres]; exact hdgal)
    simp [hm₁, hm₂, Except.toOption]

set_option maxRecDepth 10000 in
/-- C6 counterexample: in the §8 scenario state `tendSt` (auction 1 with
`tab = 1000 Rad`, `lot = 10 Wad`, `beg = 1.05 Ray`, current bid 0, both
deadlines open), the first tend bid of 100 is accepted — refuting the
claim that it is rejected with `insufficient-increase`. -/
theorem c6_counterexample :
    (flipper_tend tendSt 1 "k" (10 * WAD) (100 * RAD) 0).toOption.isSome =
      true := by rfl

set_option maxRecDepth 10000 in
/-- C6 witness: the amended statement applied to `tendSt` for a different
first bid (500): any positive first bid up to the tab clears the vacuous
zero-baseline increment rule. -/
theorem c6_amended_witness :
    (flipper_tend tendSt 1 "k" (10 * WAD) (500 * RAD) 0).toOption.isSome =
      true :=
  c6_amended tendSt 1 "k" (500 * RAD) 0
    ⟨0, 10 * WAD, "cat", 0, 10, "v", "vow", 1000 * RAD⟩ (by rfl) rfl rfl
    (by decide) (by decide) (by decide) (by rfl) (by rfl) (by rfl)

/-- C9: `vat_move` and `vat_flux` always succeed, for any amount, when the
source and destination records exist — there is no balance check, so a
balance may be driven negative — and each preserves the total it moves
within: `vat_move` the sum of all dai balances (gem untouched), `vat_flux`
the per-ilk gem totals (dai untouched).  Consequently every successful
`flipper_tend`, `flipper_dent` and `flipper_deal` conserves the total dai
and the per-ilk gem totals across all addresses. -/
theorem c9_conservation (s : St) (ilk_id src dst : String) (rad wad : Int)
    (h1 : (dlookup s.vat.dai src).isSome)
    (h2 : (dlookup s.vat.dai dst).isSome)
    (hgem : ∃ g, dlookup s.vat.gem ilk_id = some g ∧
      (dlookup g src).isSome ∧ (dlookup g dst).isSome) :
    ((vat_move s.vat src dst rad).toOption.isSome = true ∧
      ∀ v', vat_move s.vat src dst rad = .ok v' →
        dsum v'.dai = dsum s.vat.dai ∧ v'.gem = s.vat.gem) ∧
    ((vat_flux s.vat ilk_id src dst wad).toOption.isSome = true ∧
      ∀ v', vat_flux s.vat ilk_id src dst wad = .ok v' →
        (∀ k, gemSum v' k = gemSum s.vat k) ∧ v'.dai = s.vat.dai) ∧
    (∀ bid_id user_id lot bid now s',
      flipper_tend s bid_id user_id lot bid now = .ok s' →
        dsum s'.vat.dai = dsum s.vat.dai ∧ s'.vat.gem = s.vat.gem) ∧
    (∀ bid_id user_id lot bid now s',
      flipper_dent s bid_id user_id lot bid now = .ok s' →
        dsum s'.vat.dai = dsum s.vat.dai ∧
          ∀ k, gemSum s'.vat k = gemSum s.vat k) ∧
    (∀ bid_id now s', flipper_deal s bid_id now = .ok s' →
        s'.vat.dai = s.vat.dai ∧ ∀ k, gemSum s'.vat k = gemSum s.vat k) := by
  refine ⟨⟨?_, ?_⟩, ⟨?_, ?_⟩, ?_, ?_, ?_⟩
  · obtain ⟨v', hv', -⟩ := vat_move_exists rad h1 h2
    rw [hv']
    rfl
  · intro v' hv'
    obtain ⟨hd, hg, -⟩ := vat_move_effects hv'
    exact ⟨hd, hg⟩
  · obtain ⟨g, hg, hs, hd⟩ := hgem
    obtain ⟨g₁, hg₁⟩ := dmodify_exists_of_lookup (fun x => x - wad) hs
    have hd₁ : (dlookup g₁ dst).isSome := by
      rw [dlookup_isSome_dmodify hg₁]
      exact hd
    obtain ⟨g₂, hg₂⟩ := dmodify_exists_of_lookup (fun x => x + wad) hd₁
    simp only [vat_flux, hg, hg₁, hg₂]
    rfl
  · intro v' hv'
    obtain ⟨hgs, hd, -⟩ := vat_flux_effects hv'
    exact ⟨hgs, hd⟩
  · intro bid_id user_id lot bid now s' h
    obtain ⟨-, -, hd, hg, -⟩ := flipper_tend_effects h
    exact ⟨hd, hg⟩
  · intro bid_id user_id lot bid now s' h
    obtain ⟨-, -, hd, hgs, -⟩ := flipper_dent_effects h
    exact ⟨hd, hgs⟩
  · intro bid_id now s' h
    obtain ⟨curr, v', hcurr, -, -, hflux, hs'⟩ := flipper_deal_ok h
    obtain ⟨hgs, hd, -⟩ := vat_flux_effects hflux
    constructor
    · rw [hs']
      exact hd
    · intro k
      rw [hs']
      exact hgs k

set_option maxRecDepth 10000 in
/-- C9 witness: the conservation statement applied at the concrete state
`biteSt` with `src = "b"`, `dst = "cat"` over ilk "eth": both the dai move
and the gem flux go through (no balance check stops them). -/
theorem c9_conservation_witness :
    (vat_move biteSt.vat "b" "cat" (3 * RAD)).toOption.isSome = true ∧
      (vat_flux biteSt.vat "eth" "b" "cat" (7 * WAD)).toOption.isSome =
        true := by
  obtain ⟨⟨hm, -⟩, ⟨hf, -⟩, -⟩ :=
    c9_conservation biteSt "eth" "b" "cat" (3 * RAD) (7 * WAD) (by rfl) (by rfl)
      ⟨[("cat", 0), ("flipper_eth", 0), ("u", 0), ("b", 0)], by rfl, by rfl,
        by rfl⟩
  exact ⟨hm, hf⟩

/-- C1 (amended): for `vat_frob` calls on an existing ilk where the caller
has a gem record (a call without them dies in a `KeyError`, the separate
consistency-error class of §7), each call either fails with one of the three
documented errors — `CeilingExceeded`, `NotSafe`, `DustViolation` — leaving
the vat byte-for-byte unchanged, or succeeds, after which the per-ilk
ceiling invariant (`Art*rate <= line`, whenever normalized debt increased),
the collateralization invariant (`ink*spot >= art*rate`, whenever debt
increased or collateral decreased) and the dust invariant hold, and the
*pre-state* debt satisfied `debt <= Line` whenever `dart > 0`.  The claim's
fourth, post-state global ceiling invariant `debt <= Line` is *not*
guaranteed (see the counterexample): the source checks `debt` before adding
`dtab` to it. -/
theorem c1_amended (vat : Vat) (ilk_id user_id : String) (dink dart : Int)
    (urnmap : Dict String Urn) (ilk : Ilk) (g : Dict String Int)
    (hum : dlookup vat.urns ilk_id = some urnmap)
    (hik : dlookup vat.ilks ilk_id = some ilk)
    (hg : dlookup vat.gem ilk_id = some g)
    (hgu : (dlookup g user_id).isSome) :
    (∀ e v', vat_frob vat ilk_id user_id dink dart = .error (e, v') →
      (e = .ceilingExceeded ∨ e = .notSafe ∨ e = .dustViolation) ∧ v' = vat) ∧
    (∀ v', vat_frob vat ilk_id user_id dink dart = .ok v' →
      ∃ ilk' urn', dlookup v'.ilks ilk_id = some ilk' ∧
        dlookup2 v'.urns ilk_id user_id = some urn' ∧
        (0 < dart → radOfWad (mulRay ilk'.Art ilk'.rate) ≤ ilk'.line ∧
          vat.debt ≤ vat.Line) ∧
        ((0 < dart ∨ dink < 0) →
          radOfRay (rmulW ilk'.rate urn'.art) ≤
            radOfWad (mulRay urn'.ink ilk'.spot)) ∧
        (urn'.art = 0 ∨ ilk'.dust ≤ radOfRay (rmulW ilk'.rate urn'.art))) := by
  constructor
  · intro e v' h
    exact vat_frob_error hum hik hg hgu h
  · intro v' h
    obtain ⟨urnmap₀, ilk₀, g₀, g₁, hum₀, hik₀, hg₀, hg₁, h1, h2, h3, hv⟩ :=
      vat_frob_ok h
    refine ⟨{ ilk₀ with Art := ilk₀.Art + dart },
      ⟨((dlookup urnmap₀ user_id).getD ⟨0, 0⟩).ink + dink,
       ((dlookup urnmap₀ user_id).getD ⟨0, 0⟩).art + dart⟩, ?_, ?_, ?_, ?_, h3⟩
    · rw [hv]
      show dlookup (dset vat.ilks ilk_id _) ilk_id = _
      rw [dlookup_dset, if_pos rfl]
    · rw [hv]
      show dlookup2 (dset vat.urns ilk_id _) ilk_id user_id = _
      unfold dlookup2
      rw [dlookup_dset, if_pos rfl]
      show dlookup (dset urnmap₀ user_id _) user_id = _
      rw [dlookup_dset, if_pos rfl]
    · intro hd
      rcases h1 with h' | h'
      · exact absurd hd (not_lt.mpr h')
      · exact h'
    · intro hd
      rcases h2 with h' | h'
      · rcases hd with hd | hd
        · exact absurd hd (not_lt.mpr h'.1)
        · exact absurd hd (not_lt.mpr h'.2)
      · exact h'

/-- C1 counterexample: from `frobVat₀` (`debt = Line = 0`) the call
`vat_frob "eth" "u" (+10 gem, +1 normalized debt)` succeeds, yet afterwards
the global ceiling invariant `debt <= Line` — one of the claim's four — is
violated: `debt = 1 Rad > 0 = Line`. -/
theorem c1_counterexample :
    (vat_frob frobVat₀ "eth" "u" (10 * WAD) WAD).toOption.map
      (fun v => decide (v.Line < v.debt)) = some true := by rfl

set_option maxRecDepth 10000 in
/-- C1 witness: the amended statement applied at `frobVat₀`: the successful
frob writes back a post-state in which the caller's urn exists. -/
theorem c1_amended_witness :
    (dlookup2 frobRes₀.urns "eth" "u").isSome = true := by
  obtain ⟨ilk', urn', hi, hu, -, -, -⟩ :=
    (c1_amended frobVat₀ "eth" "u" WAD WAD []
      ⟨RAY, 100 * RAY, 10 ^ 9 * RAD, 0, 0⟩ [("u", 100 * WAD)] (by rfl)
      (by rfl) (by rfl) (by rfl)).2 frobRes₀ (by rfl)
  rw [hu]
  rfl

/-- C2 (the code bug, evaluated): `vat_frob` checks the global ceiling
against the *pre-state* debt — the source asserts `vat["debt"] <=
vat["Line"]` (policies.py:149) before executing `vat["debt"] += dtab`
(policies.py:156) — unlike the per-ilk half of the very same assert, which
uses the post-state `Art`.  From `frobVat₁`, already exactly at its ceiling
(`debt = Line = 5 Rad`), a frob with `dart = +2` therefore succeeds instead
of failing `CeilingExceeded`, committing a mutation whose resulting global
debt `7 Rad` exceeds `Line = 5 Rad`. -/
theorem c2_prestate_ceiling_bug :
    frobVat₁.debt = frobVat₁.Line ∧
      (vat_frob frobVat₁ "eth" "u" (10 * WAD) (2 * WAD)).toOption.map
        (fun v => (decide (v.Line < v.debt), v.debt)) =
        some (true, 7 * RAD) :=
  ⟨rfl, by rfl⟩

/-- Success inversion for `vat_grab`: all lookups succeeded and the new vat
is exactly the written-back state. -/
theorem vat_grab_ok {vat v' : Vat} {ilk_id user_id : String} {dink dart : Int}
    (h : vat_grab vat ilk_id user_id dink dart = .ok v') :
    ∃ urnmap urn ilk g g₁ sin',
      dlookup vat.urns ilk_id = some urnmap ∧
      dlookup urnmap user_id = some urn ∧
      dlookup vat.ilks ilk_id = some ilk ∧
      dlookup vat.gem ilk_id = some g ∧
      dmodify g "cat" (fun x => x - dink) = some g₁ ∧
      dmodify vat.sin "vow" (fun x => x - radOfRay (rmulW ilk.rate dart)) =
        some sin' ∧
      v' = { vat with
             urns := dset vat.urns ilk_id (dset urnmap user_id
               ⟨urn.ink + dink, urn.art + dart⟩),
             ilks := dset vat.ilks ilk_id { ilk with Art := ilk.Art + dart },
             gem := dset vat.gem ilk_id g₁,
             sin := sin',
             vice := vat.vice - radOfRay (rmulW ilk.rate dart) } := by
  simp only [vat_grab] at h
  split at h
  · cases h
  · rename_i urnmap hum
    split at h
    · cases h
    · rename_i urn hu
      split at h
      · cases h
      · rename_i ilk hik
        split at h
        · cases h
        · rename_i g hg
          split at h
          · cases h
          · rename_i g₁ hg₁
            split at h
            · cases h
            · rename_i sin' hsin
              cases h
              exact ⟨urnmap, urn, ilk, g, g₁, sin', hum, hu, hik, hg, hg₁,
                hsin, rfl⟩

/-- C10: `vat_grab` requires the urn to already exist — on a missing urn (or
missing urn dict for the ilk) it raises the `KeyError` consistency error
with the vat untouched, unlike `vat_frob`, which creates the urn on
success — and on success it modifies only the urn's `ink`/`art`, the ilk's
`Art`, the `cat` gem balance of that ilk, `sin["vow"]` and `vice`: the
vat's `debt`, its `Line`, the entire dai dict, and every other ilk's
urns/gem/ilk records, every other user's urn, every other address's gem
balance and every other sin entry are unchanged. -/
theorem c10_grab_frame (vat : Vat) (ilk_id user_id : String)
    (dink dart : Int) :
    (dlookup2 vat.urns ilk_id user_id = none →
      vat_grab vat ilk_id user_id dink dart = .error (.keyError, vat)) ∧
    (∀ v', vat_frob vat ilk_id user_id dink dart = .ok v' →
      (dlookup2 v'.urns ilk_id user_id).isSome) ∧
    (∀ v', vat_grab vat ilk_id user_id dink dart = .ok v' →
      v'.debt = vat.debt ∧ v'.Line = vat.Line ∧ v'.dai = vat.dai ∧
      (∀ k, k ≠ ilk_id → dlookup v'.urns k = dlookup vat.urns k ∧
        dlookup v'.gem k = dlookup vat.gem k ∧
        dlookup v'.ilks k = dlookup vat.ilks k) ∧
      (∀ u, u ≠ user_id →
        dlookup2 v'.urns ilk_id u = dlookup2 vat.urns ilk_id u) ∧
      (∀ a, a ≠ "cat" →
        dlookup2 v'.gem ilk_id a = dlookup2 vat.gem ilk_id a) ∧
      (∀ k, k ≠ "vow" → dlookup v'.sin k = dlookup vat.sin k)) := by
  refine ⟨?_, ?_, ?_⟩
  · intro hnone
    unfold dlookup2 at hnone
    simp only [vat_grab]
    cases houter : dlookup vat.urns ilk_id with
    | none => rfl
    | some m =>
      rw [houter] at hnone
      simp only [Option.some_bind] at hnone
      simp only [hnone]
  · intro v' h
    obtain ⟨urnmap₀, ilk₀, g₀, g₁, hum₀, hik₀, hg₀, hg₁, -, -, -, hv⟩ :=
      vat_frob_ok h
    rw [hv]
    show (dlookup2 (dset vat.urns ilk_id _) ilk_id user_id).isSome = true
    unfold dlookup2
    rw [dlookup_dset, if_pos rfl]
    show (dlookup (dset urnmap₀ user_id _) user_id).isSome = true
    rw [dlookup_dset, if_pos rfl]
    rfl
  · intro v' h
    obtain ⟨urnmap, urn, ilk, g, g₁, sin', hum, hu, hik, hg, hg₁, hsin, hv⟩ :=
      vat_grab_ok h
    subst hv
    refine ⟨rfl, rfl, rfl, ?_, ?_, ?_, ?_⟩
    · intro k hk
      refine ⟨?_, ?_, ?_⟩ <;>
        · show dlookup (dset _ ilk_id _) k = _
          rw [dlookup_dset, if_neg hk]
    · intro u hu'
      show dlookup2 (dset vat.urns ilk_id _) ilk_id u = _
      unfold dlookup2
      rw [dlookup_dset, if_pos rfl, hum]
      simp only [Option.some_bind]
      show dlookup (dset urnmap user_id _) u = _
      rw [dlookup_dset, if_neg hu']
    · intro a ha
      show dlookup2 (dset vat.gem ilk_id g₁) ilk_id a = _
      unfold dlookup2
      rw [dlookup_dset, if_pos rfl, hg]
      simp only [Option.some_bind]
      rw [dmodify_eq_some hg₁ a, if_neg ha]
    · intro k hk
      show dlookup sin' k = _
      rw [dmodify_eq_some hsin k, if_neg hk]

set_option maxRecDepth 10000 in
/-- C10 witness: grabbing a missing urn of `frobVat₀` raises the consistency
error with the vat unchanged, while the successful grab `grabRes₀` on
`biteSt.vat` leaves debt and the dai dict untouched. -/
theorem c10_grab_frame_witness :
    vat_grab frobVat₀ "eth" "nobody" WAD WAD = .error (.keyError, frobVat₀) ∧
      grabRes₀.debt = biteSt.vat.debt ∧ grabRes₀.dai = biteSt.vat.dai := by
  refine ⟨(c10_grab_frame frobVat₀ "eth" "nobody" WAD WAD).1 (by rfl), ?_⟩
  obtain ⟨hd, -, hdai, -⟩ :=
    (c10_grab_frame biteSt.vat "eth" "u" (-WAD) (-WAD)).2.2 grabRes₀ (by rfl)
  exact ⟨hd, hdai⟩
